import Mathlib

/-!
Verification of the deterministic randomness derivation engine and the game
resolvers of the `mop` provably-fair games repository.

The JavaScript source is shallowly embedded: JS strings are Lean `String`s,
JS 32-bit integer arithmetic is `Int` with explicit wrapping, JS floats are
modelled by exact rationals `ℚ` (every quantity produced by the derivation
path is a small integer divided by a fixed constant, far from any double
rounding boundary, so exact rational arithmetic distinguishes exactly the
values the doubles distinguish), and the current clock `Date.now()` is an
explicit `now : ℕ` parameter.
-/

namespace Mop

/-- Wrap an integer to signed 32-bit two's-complement range, as the JS `| 0`
and `<<` operators do. -/
def toInt32 (n : ℤ) : ℤ := (n + 2 ^ 31) % 2 ^ 32 - 2 ^ 31

/-- Conversion of an integer to a `Uint8Array` element (JS `ToUint8`). -/
def toUint8 (n : ℤ) : ℕ := (n % 256).toNat

/-- One step of the mixing loop:
`hash = ((hash << 5) - hash + x) | 0` from the source. -/
def hashStep (acc : ℤ) (x : ℕ) : ℤ := toInt32 (toInt32 (acc * 32) - acc + (x : ℤ))

/-- UTF-8 encoding of a single character (what `TextEncoder.encode` emits). -/
def utf8Char (c : Char) : List ℕ :=
  let n := c.toNat
  if n < 0x80 then [n]
  else if n < 0x800 then [0xC0 + n / 0x40, 0x80 + n % 0x40]
  else if n < 0x10000 then
    [0xE0 + n / 0x1000, 0x80 + n / 0x40 % 0x40, 0x80 + n % 0x40]
  else
    [0xF0 + n / 0x40000, 0x80 + n / 0x1000 % 0x40, 0x80 + n / 0x40 % 0x40,
      0x80 + n % 0x40]

/-- UTF-8 bytes of a string. -/
def utf8Str (s : String) : List ℕ := (s.data.map utf8Char).foldr (· ++ ·) []

/-- UTF-16 code units of a single character (JS strings index by code unit;
`split("")` followed by `charCodeAt(0)` observes these). -/
def utf16Char (c : Char) : List ℕ :=
  let n := c.toNat
  if n < 0x10000 then [n]
  else [0xD800 + (n - 0x10000) / 0x400, 0xDC00 + (n - 0x10000) % 0x400]

/-- UTF-16 code units of a string. -/
def utf16Str (s : String) : List ℕ := (s.data.map utf16Char).foldr (· ++ ·) []

/-- Digit character for bases up to 36, lowercase, as JS `Number.toString`. -/
def digitChar (n : ℕ) : Char :=
  if n < 10 then Char.ofNat (48 + n) else Char.ofNat (87 + n)

/-- Digits of `n` in the given base, most significant first (`fuel ≥ 1`
suffices when `fuel > n`). -/
def natDigitsAux (base : ℕ) : ℕ → ℕ → List Char
  | 0, _ => []
  | fuel + 1, n =>
    if n < base then [digitChar n]
    else natDigitsAux base fuel (n / base) ++ [digitChar (n % base)]

/-- `n.toString(base)` for a natural number. -/
def natToBaseStr (base n : ℕ) : String := String.mk (natDigitsAux base (n + 1) n)

/-- JS string interpolation of an integer-valued number. -/
def intToStr (i : ℤ) : String :=
  if i < 0 then "-" ++ natToBaseStr 10 (-i).toNat else natToBaseStr 10 i.toNat

/-- Whether a character is matched by `.` in a JS regular expression
(everything except the four line terminators). -/
def dotChar (c : Char) : Bool :=
  !(c.toNat = 0x0A || c.toNat = 0x0D || c.toNat = 0x2028 || c.toNat = 0x2029)

/-- The successive matches of `seedHex.match(/.{1,2}/g)`: at each position a
greedy run of one or two non-line-terminator characters, skipping characters
where no match can start. -/
def hexPairs : List Char → List (List Char)
  | [] => []
  | c :: rest =>
    if dotChar c then
      match rest with
      | [] => [[c]]
      | d :: rest2 =>
        if dotChar d then [c, d] :: hexPairs rest2 else [c] :: hexPairs rest2
    else hexPairs rest

/-- Characters skipped by `parseInt` before parsing (JS WhiteSpace and
LineTerminator code points). -/
def jsWhitespace (c : Char) : Bool :=
  c.toNat ∈ [0x09, 0x0A, 0x0B, 0x0C, 0x0D, 0x20, 0xA0, 0x1680, 0x2000, 0x2001,
    0x2002, 0x2003, 0x2004, 0x2005, 0x2006, 0x2007, 0x2008, 0x2009, 0x200A,
    0x2028, 0x2029, 0x202F, 0x205F, 0x3000, 0xFEFF]

/-- Value of a hexadecimal digit character, if it is one. -/
def hexVal (c : Char) : Option ℕ :=
  if 48 ≤ c.toNat ∧ c.toNat ≤ 57 then some (c.toNat - 48)
  else if 97 ≤ c.toNat ∧ c.toNat ≤ 102 then some (c.toNat - 87)
  else if 65 ≤ c.toNat ∧ c.toNat ≤ 70 then some (c.toNat - 55)
  else none

/-- JS `Number.parseInt(s, 16)`: skip whitespace, optional sign, optional
`0x` prefix, then the longest prefix of hex digits; `none` models `NaN`. -/
def parseIntHex (cs : List Char) : Option ℤ :=
  let cs1 := cs.dropWhile jsWhitespace
  let signed : ℤ × List Char :=
    match cs1 with
    | '-' :: t => (-1, t)
    | '+' :: t => (1, t)
    | l => (1, l)
  let body : List Char :=
    match signed.2 with
    | c0 :: c1 :: t =>
      if c0.toNat = 48 ∧ (c1.toNat = 120 ∨ c1.toNat = 88) then t
      else c0 :: c1 :: t
    | l => l
  let ds := body.takeWhile (fun c => (hexVal c).isSome)
  if ds.isEmpty then none
  else
    some (signed.1 *
      (ds.foldl (fun acc c => acc * 16 + (((hexVal c).getD 0 : ℕ) : ℤ)) 0))

/-- Byte contributed by one matched pair:
`isNaN(parsed) ? 0 : parsed` pushed through the `Uint8Array` conversion. -/
def byteOfPair (p : List Char) : ℕ :=
  match parseIntHex p with
  | none => 0
  | some v => toUint8 v

/-- The seed byte sequence the source builds: hex pairs when the regex
matches, otherwise (regex returns `null`, an error is thrown and caught) the
first 32 UTF-8 bytes of the string. -/
def seedBytesOf (seed : String) : List ℕ :=
  match hexPairs seed.data with
  | [] => (utf8Str seed).take 32
  | ms => ms.map byteOfPair

/-- The mixing loop of `deriveGameRandom`: fold `hashStep` of
seed byte XOR cycled context byte over the first `min (length) 32` bytes. -/
def mixHash (sb cb : List ℕ) : ℤ :=
  (List.range (min sb.length 32)).foldl
    (fun acc i => hashStep acc (Nat.xor (sb.getD i 0) (cb.getD (i % cb.length) 0)))
    0

/-- `Math.max(a, b)` on ordered rationals. -/
def jsMax (a b : ℚ) : ℚ := if a ≤ b then b else a

/-- `Math.min(a, b)` on ordered rationals. -/
def jsMin (a b : ℚ) : ℚ := if a ≤ b then a else b

/-- `Math.min(0.999999, Math.max(0.000001, q))`. The decimal constants are
written with `mkRat` so that closed instances reduce inside the kernel;
`clamp_eq_min_max` below identifies this with the textbook form. -/
def clamp (q : ℚ) : ℚ := jsMin (mkRat 999999 1000000) (jsMax (mkRat 1 1000000) q)

/-- `Math.floor(q * n)` for a rational `q` and a constant `n`, computed by
integer floor division so that closed instances reduce inside the kernel;
`jsFloorMul_eq` below identifies this with `⌊q * n⌋`. -/
def jsFloorMul (q : ℚ) (n : ℕ) : ℤ := Int.fdiv (q.num * n) q.den

/-- The `context` argument of `deriveGameRandom`: a string or a non-string
value (only its being a non-string is observable). -/
inductive JsContext
  | str (s : String)
  | nonString
deriving DecidableEq

/-- The `step` argument of `deriveGameRandom`: an integer-valued number,
`NaN`, or a non-number value. -/
inductive JsIndex
  | int (i : ℤ)
  | nan
  | nonNumber
deriving DecidableEq

/-- Seed validation: a falsy (empty) seed is replaced by
`"fallback-seed-" + Date.now().toString(16)`. -/
def validSeed (seedHex : String) (now : ℕ) : String :=
  if seedHex = "" then "fallback-seed-" ++ natToBaseStr 16 now else seedHex

/-- Context validation: falsy or non-string context becomes
`"default-context"`. -/
def validContext : JsContext → String
  | .str s => if s = "" then "default-context" else s
  | .nonString => "default-context"

/-- Step validation: a non-number or `NaN` step becomes `0`. -/
def validStep : JsIndex → ℤ
  | .int i => i
  | .nan => 0
  | .nonNumber => 0

/-- The body of `deriveGameRandom` after input validation: build seed bytes,
mix with the UTF-8 bytes of `context ++ "-" ++ step`, normalize the absolute
hash by `2147483647`, clamp. -/
def deriveCore (seed ctx : String) (k : ℤ) : ℚ :=
  clamp
    (mkRat ((mixHash (seedBytesOf seed) (utf8Str (ctx ++ "-" ++ intToStr k))).natAbs)
      2147483647)

/-- `deriveGameRandom(seedHex, context, step)` from `lib/crypto/seed`;
`now` is the value `Date.now()` would return during the call (it is only
consulted when the seed is empty). -/
def deriveGameRandom (seedHex : String) (context : JsContext) (step : JsIndex)
    (now : ℕ) : ℚ :=
  deriveCore (validSeed seedHex now) (validContext context) (validStep step)

/-- The accumulator of the `catch` fallback:
`(seedHex + context + step).split("").reduce(((acc << 5) - acc + charCode) | 0, 0)`. -/
def fallbackHash (s : String) : ℤ :=
  (utf16Str s).foldl (fun acc code => toInt32 (toInt32 (acc * 32) - acc + (code : ℤ))) 0

/-- The value the `catch` fallback path would return:
`Math.abs(fallbackSeed % 1000000) / 1000000`. -/
def fallbackDerive (seedHex context : String) (step : ℤ) : ℚ :=
  mkRat (((fallbackHash (seedHex ++ context ++ intToStr step)).tmod 1000000).natAbs)
    1000000

/-- Splitting a string into successive pairs of characters (the last group
may be a single character). Used by the reference reading of the spec, which
describes the seed as decoded from "successive hex byte pairs". -/
def chunk2 : List Char → List (List Char)
  | [] => []
  | [c] => [[c]]
  | a :: b :: t => [a, b] :: chunk2 t

/-- Reference derivation following the claim wording for the main path:
decode the seed as successive hex byte pairs (a pair whose parse yields NaN
contributes byte 0), fold the first `min 32` bytes with the signed-32-bit
accumulator update against the cycled UTF-8 bytes of `context ++ "-" ++ index`,
normalize by 2147483647 and clamp. -/
def referenceDerive (seed ctx : String) (k : ℤ) : ℚ :=
  clamp
    (mkRat ((mixHash ((chunk2 seed.data).map byteOfPair)
        (utf8Str (ctx ++ "-" ++ intToStr k))).natAbs) 2147483647)

/-- Reference derivation following the claim wording for malformed seeds:
the seed byte sequence is the raw UTF-8 bytes of the seed string. -/
def utf8FallbackDerive (seed ctx : String) (k : ℤ) : ℚ :=
  clamp
    (mkRat ((mixHash (utf8Str seed)
        (utf8Str (ctx ++ "-" ++ intToStr k))).natAbs) 2147483647)

/-- JS array indexing: `none` models `undefined` (negative or too-large
index). -/
def jsGet {α : Type} (l : List α) (i : ℤ) : Option α :=
  if i < 0 then none else l.get? i.toNat

/-! ### Rock-paper-scissors resolver (`enhanced-rps.tsx`) -/

/-- The three moves. -/
inductive Move
  | rock
  | paper
  | scissors
deriving DecidableEq

/-- `MOVES = ["rock", "paper", "scissors"]`. -/
def MOVES : List Move := [.rock, .paper, .scissors]

/-- `MOVE_BEATS = \x7b rock: "scissors", paper: "rock", scissors: "paper" \x7d`. -/
def MOVE_BEATS : Move → Move
  | .rock => .scissors
  | .paper => .rock
  | .scissors => .paper

/-- `determineWinner` from the source: tie on equal moves, otherwise player 1
wins exactly when their move beats player 2's. -/
def determineWinner (player1 player2 : String) (move1 move2 : Move) : String :=
  if move1 = move2 then "Tie"
  else if MOVE_BEATS move1 = move2 then player1
  else player2

/-- The beats-relation exactly as the claim words it: rock beats scissors,
scissors beats paper, paper beats rock. -/
def specBeats : Move → Move → Bool
  | .rock, .scissors => true
  | .scissors, .paper => true
  | .paper, .rock => true
  | _, _ => false

/-- Winner selection as the claim words it. -/
def specRpsWinner (player1 player2 : String) (move1 move2 : Move) : String :=
  if move1 = move2 then "Tie"
  else if specBeats move1 move2 then player1
  else player2

/-- One resolved RPS game. -/
structure RpsResult where
  gameIndex : ℕ
  player1Move : Move
  player2Move : Move
  winner : String
deriving DecidableEq

/-- The per-game body of the RPS `processBatch`: derive a value for each
player from their own context, pick `MOVES[Math.floor(seed * 3)]`, resolve.
`none` models an out-of-bounds move lookup yielding `undefined`. -/
def rpsResolve (masterSeed sessionId player1 player2 : String) (now gameIndex : ℕ) :
    Option RpsResult :=
  let p1Seed := deriveGameRandom masterSeed (.str ("rps-p1-" ++ sessionId))
    (.int gameIndex) now
  let p2Seed := deriveGameRandom masterSeed (.str ("rps-p2-" ++ sessionId))
    (.int gameIndex) now
  match jsGet MOVES (jsFloorMul p1Seed 3), jsGet MOVES (jsFloorMul p2Seed 3) with
  | some m1, some m2 =>
    some ⟨gameIndex, m1, m2, determineWinner player1 player2 m1 m2⟩
  | _, _ => none

/-- The RPS `processBatch` loop: games `start, start+1, ..., start+size-1`. -/
def rpsBatch (masterSeed sessionId player1 player2 : String) (now start size : ℕ) :
    List (Option RpsResult) :=
  (List.range size).map
    (fun i => rpsResolve masterSeed sessionId player1 player2 now (start + i))

/-! ### High-card resolver (`high-card-game.tsx`) -/

/-- `SUITS = ["♠", "♥", "♦", "♣"]`. -/
def SUITS : List String := ["♠", "♥", "♦", "♣"]

/-- `RANKS = ["2", ..., "K", "A"]`. -/
def RANKS : List String :=
  ["2", "3", "4", "5", "6", "7", "8", "9", "10", "J", "Q", "K", "A"]

/-- The `RANK_VALUES` object: rank label to numeric value, 2..14. -/
def RANK_VALUES (r : String) : Option ℕ :=
  if r = "2" then some 2
  else if r = "3" then some 3
  else if r = "4" then some 4
  else if r = "5" then some 5
  else if r = "6" then some 6
  else if r = "7" then some 7
  else if r = "8" then some 8
  else if r = "9" then some 9
  else if r = "10" then some 10
  else if r = "J" then some 11
  else if r = "Q" then some 12
  else if r = "K" then some 13
  else if r = "A" then some 14
  else none

/-- A playing card as the source builds it. -/
structure PlayingCard where
  suit : String
  rank : String
  value : ℕ
deriving DecidableEq

/-- `drawCard` body in terms of the 52-card index:
`suitIndex = Math.floor(cardIndex / 13)`, `rankIndex = cardIndex % 13`,
lookups into `SUITS`, `RANKS`, `RANK_VALUES`; `none` models an `undefined`
field from an out-of-bounds lookup. -/
def drawCardIdx (cardIndex : ℤ) : Option PlayingCard :=
  let suitIndex : ℤ := cardIndex.fdiv 13
  let rankIndex : ℤ := cardIndex.tmod 13
  match jsGet SUITS suitIndex, jsGet RANKS rankIndex with
  | some s, some r =>
    match RANK_VALUES r with
    | some v => some ⟨s, r, v⟩
    | none => none
  | _, _ => none

/-- `drawCard(seed)` from the source: `cardIndex = Math.floor(seed * 52)`. -/
def drawCard (seed : ℚ) : Option PlayingCard := drawCardIdx (jsFloorMul seed 52)

/-- The `suitOrder` object used for tie-breaking
(spade 4, heart 3, diamond 2, club 1; anything else is `undefined`,
modelled as 0 which like `undefined` wins no comparison). -/
def suitOrder (s : String) : ℕ :=
  if s = "♠" then 4
  else if s = "♥" then 3
  else if s = "♦" then 2
  else if s = "♣" then 1
  else 0

/-- Winner comparison from the high-card `processBatch`: higher value wins,
then higher suit order, else tie. -/
def highCardWinner (player1 player2 : String) (c1 c2 : PlayingCard) : String :=
  if c2.value < c1.value then player1
  else if c1.value < c2.value then player2
  else if suitOrder c2.suit < suitOrder c1.suit then player1
  else if suitOrder c1.suit < suitOrder c2.suit then player2
  else "Tie"

/-- One resolved high-card game. -/
structure HighCardResult where
  gameIndex : ℕ
  player1Card : PlayingCard
  player2Card : PlayingCard
  winner : String
deriving DecidableEq

/-- The per-game body of the high-card `processBatch`. -/
def highCardResolve (masterSeed sessionId player1 player2 : String)
    (now gameIndex : ℕ) : Option HighCardResult :=
  let p1Seed := deriveGameRandom masterSeed (.str ("card-p1-" ++ sessionId))
    (.int gameIndex) now
  let p2Seed := deriveGameRandom masterSeed (.str ("card-p2-" ++ sessionId))
    (.int gameIndex) now
  match drawCard p1Seed, drawCard p2Seed with
  | some c1, some c2 =>
    some ⟨gameIndex, c1, c2, highCardWinner player1 player2 c1 c2⟩
  | _, _ => none

/-- Rank value as the claim words it: `cardIndex mod 13` mapped through the
rank table, i.e. the value `rankIndex + 2` (Ace, index 12, is 14). -/
def specRankValue (cardIndex : ℕ) : ℕ := cardIndex % 13 + 2

/-- Suit priority as the claim words it: the fixed order
spade > heart > diamond > club on `cardIndex / 13`. -/
def specSuitRank (cardIndex : ℕ) : ℕ := 4 - cardIndex / 13

/-- High-card winner as the claim words it, on raw 52-card indices. -/
def specHighCardWinner (player1 player2 : String) (i1 i2 : ℕ) : String :=
  if specRankValue i2 < specRankValue i1 then player1
  else if specRankValue i1 < specRankValue i2 then player2
  else if specSuitRank i2 < specSuitRank i1 then player1
  else if specSuitRank i1 < specSuitRank i2 then player2
  else "Tie"

/-! ### Grid coin-flip resolver (`grid-coin-flip.tsx`) -/

/-- One resolved coin-flip game. -/
structure CoinResult where
  gameIndex : ℕ
  face : String
  winner : String
deriving DecidableEq

/-- The face of game `gameIndex`:
`deriveGameRandom(masterSeed, "flip-" + sessionId, gameIndex) < 0.5`. -/
def coinFace (masterSeed sessionId : String) (now gameIndex : ℕ) : String :=
  if deriveGameRandom masterSeed (.str ("flip-" ++ sessionId)) (.int gameIndex) now
      < mkRat 1 2 then "heads" else "tails"

/-- The player owning heads for the batch starting at `batchStart`:
the assignment value is derived at the batch start index, not at the game
index. -/
def headsPlayerOf (masterSeed sessionId player1 player2 : String)
    (now batchStart : ℕ) : String :=
  if deriveGameRandom masterSeed (.str ("assignment-" ++ sessionId))
      (.int batchStart) now < mkRat 1 2 then player1 else player2

/-- One game of the coin-flip `processBatch`: the face comes from the game
index, the winner from the face and the batch-start side assignment. -/
def coinGame (masterSeed sessionId player1 player2 : String)
    (now batchStart gameIndex : ℕ) : CoinResult :=
  let heads := headsPlayerOf masterSeed sessionId player1 player2 now batchStart
  let tails := if heads = player1 then player2 else player1
  let face := coinFace masterSeed sessionId now gameIndex
  ⟨gameIndex, face, if face = "heads" then heads else tails⟩

/-- The coin-flip `processBatch` loop: games `start, ..., start+size-1`, all
sharing the side assignment derived at `start`. -/
def coinBatch (masterSeed sessionId player1 player2 : String)
    (now start size : ℕ) : List CoinResult :=
  (List.range size).map
    (fun i => coinGame masterSeed sessionId player1 player2 now start (start + i))

/-! ### Claim-side reference forms for the resolvers -/

/-- The 52-card index the claim describes: `floor(v * 52)` as a natural
number. -/
def specCardIndex (v : ℚ) : ℕ := (⌊v * 52⌋).toNat

/-- The card the claim describes for a 52-card index: suit from the integer
division by 13, rank from the remainder, rank value `rankIndex + 2`. -/
def specDrawCard (i : ℕ) : PlayingCard :=
  ⟨SUITS.getD (i / 13) "", RANKS.getD (i % 13) "", i % 13 + 2⟩

/-- The move the claim describes: the element of `[rock, paper, scissors]`
at index `floor(v * 3)`. -/
def specMove (v : ℚ) : Move := MOVES.getD (⌊v * 3⌋).toNat .rock

/-! ### General lemmas about the derivation function -/

/-- The `mkRat` clamp constants are the decimal constants of the source. -/
theorem mkRat_low : (mkRat 1 1000000 : ℚ) = 1 / 1000000 := by
  rw [Rat.mkRat_eq_div]; norm_num

/-- The `mkRat` clamp constants are the decimal constants of the source. -/
theorem mkRat_high : (mkRat 999999 1000000 : ℚ) = 999999 / 1000000 := by
  rw [Rat.mkRat_eq_div]; norm_num

/-- `clamp` is the usual min/max clamp into `[0.000001, 0.999999]`. -/
theorem clamp_eq_min_max (q : ℚ) :
    clamp q = min (999999 / 1000000) (max (1 / 1000000) q) := by
  unfold clamp jsMin jsMax
  rw [mkRat_low, mkRat_high, min_def, max_def]

/-- `jsFloorMul` computes `Math.floor(q * n)`. -/
theorem jsFloorMul_eq (q : ℚ) (n : ℕ) : jsFloorMul q n = ⌊q * n⌋ := by
  rw [jsFloorMul, Int.fdiv_eq_ediv _ (by positivity)]
  have h : (q * (n : ℚ)) = ((q.num * n : ℤ) : ℚ) / ((q.den : ℕ) : ℚ) := by
    conv_lhs => rw [← Rat.num_div_den q]
    push_cast
    ring
  rw [h, Rat.floor_intCast_div_natCast]

/-- The clamp keeps every rational inside the closed interval
`[0.000001, 0.999999]`. -/
theorem clamp_range (q : ℚ) :
    1 / 1000000 ≤ clamp q ∧ clamp q ≤ 999999 / 1000000 := by
  unfold clamp jsMin jsMax
  rw [mkRat_low, mkRat_high]
  split_ifs <;> constructor <;> linarith

/-- Every value `deriveGameRandom` returns lies in `[0.000001, 0.999999]`. -/
theorem derive_range (seedHex : String) (context : JsContext) (step : JsIndex)
    (now : ℕ) :
    1 / 1000000 ≤ deriveGameRandom seedHex context step now ∧
      deriveGameRandom seedHex context step now ≤ 999999 / 1000000 :=
  clamp_range _

/-- The absolute value of a truncated remainder is the remainder of the
absolute values. -/
theorem natAbs_tmod_eq (a b : ℤ) : (a.tmod b).natAbs = a.natAbs % b.natAbs := by
  cases a <;> cases b <;> simp [Int.tmod] <;> rfl

/-- The fallback-path formula lies in `[0, 0.999999]`. -/
theorem fallbackDerive_range (seedHex context : String) (step : ℤ) :
    0 ≤ fallbackDerive seedHex context step ∧
      fallbackDerive seedHex context step ≤ 999999 / 1000000 := by
  have h : ((fallbackHash (seedHex ++ context ++ intToStr step)).tmod
      1000000).natAbs < 1000000 := by
    rw [natAbs_tmod_eq]
    exact Nat.mod_lt _ (by norm_num)
  rw [fallbackDerive, Rat.mkRat_eq_div]
  constructor
  · positivity
  · have hn : ((fallbackHash (seedHex ++ context ++ intToStr step)).tmod
        1000000).natAbs ≤ 999999 := by omega
    have h2 : ((((fallbackHash (seedHex ++ context ++ intToStr step)).tmod
        1000000).natAbs : ℤ) : ℚ) ≤ 999999 := by
      exact_mod_cast hn
    gcongr

/-! ### Claim theorems -/

set_option maxRecDepth 20000 in
/-- C1, counterexample: with an empty seed string and otherwise identical
arguments, two calls of `deriveGameRandom` made at clock values 0 and 1
return different floats, so the derivation is not deterministic for empty
seeds. -/
theorem claim_C1_counterexample :
    deriveGameRandom "" (.str "x") (.int 0) 0 ≠
      deriveGameRandom "" (.str "x") (.int 0) 1 := by decide

/-- C1, amended: for every non-empty seed string, `deriveGameRandom` is a
pure function of (seed, context, index) — the clock value is never consulted,
so any two calls with identical arguments return the identical value, within
one process and across processes. -/
theorem claim_C1_deterministic (seedHex : String) (context : JsContext)
    (step : JsIndex) (now1 now2 : ℕ) (h : seedHex ≠ "") :
    deriveGameRandom seedHex context step now1 =
      deriveGameRandom seedHex context step now2 := by
  simp [deriveGameRandom, validSeed, h]

/-- Witness for the amended C1 at a concrete non-empty seed. -/
theorem claim_C1_witness :
    ("aa" : String) ≠ "" ∧
      deriveGameRandom "aa" (.str "x") (.int 0) 3 =
        deriveGameRandom "aa" (.str "x") (.int 0) 7 :=
  ⟨by decide, claim_C1_deterministic "aa" (.str "x") (.int 0) 3 7 (by decide)⟩

/-- C2: `deriveGameRandom` is a total function (it is defined, with no
partiality, for every seed string, context value, step value and clock
value), and always returns a rational strictly between 0 and 1. -/
theorem claim_C2_total_range (seedHex : String) (context : JsContext)
    (step : JsIndex) (now : ℕ) :
    0 < deriveGameRandom seedHex context step now ∧
      deriveGameRandom seedHex context step now < 1 := by
  obtain ⟨h1, h2⟩ := derive_range seedHex context step now
  constructor
  · linarith
  · linarith

set_option maxRecDepth 20000 in
/-- C3, counterexample: the fallback (catch) path formula evaluates to
exactly 0 on a concrete input, which is outside `[0.000001, 0.999999]` and
not strictly between 0 and 1. -/
theorem claim_C3_counterexample :
    fallbackDerive "8j~|" "" 0 = 0 ∧
      ¬ 1 / 1000000 ≤ fallbackDerive "8j~|" "" 0 := by
  have h : fallbackDerive "8j~|" "" 0 = 0 := by decide
  refine ⟨h, ?_⟩
  rw [h]
  norm_num

/-- C3, amended: every value returned by `deriveGameRandom` (whose body
always ends in the clamp) lies in `[0.000001, 0.999999]`; the fallback
formula on its own is only guaranteed to lie in `[0, 0.999999]` and can be
exactly 0. -/
theorem claim_C3_range (seedHex : String) (context : JsContext)
    (step : JsIndex) (now : ℕ) (s c : String) (k : ℤ) :
    (1 / 1000000 ≤ deriveGameRandom seedHex context step now ∧
      deriveGameRandom seedHex context step now ≤ 999999 / 1000000) ∧
      (0 ≤ fallbackDerive s c k ∧ fallbackDerive s c k ≤ 999999 / 1000000) :=
  ⟨derive_range seedHex context step now, fallbackDerive_range s c k⟩

set_option maxRecDepth 20000 in
/-- C9, counterexample: a negative index is not coerced to 0 — at a concrete
seed, deriving at index -1 differs from deriving at index 0. -/
theorem claim_C9_counterexample :
    deriveGameRandom "aabbcc" (.str "x") (.int (-1)) 0 ≠
      deriveGameRandom "aabbcc" (.str "x") (.int 0) 0 := by decide

/-- C9, amended: a `NaN` or non-number index is coerced to the safe default
index 0, and a non-string or empty context is coerced to the fixed default
context string; negative indices pass through unchanged. -/
theorem claim_C9_coercions (seedHex : String) (context : JsContext)
    (step : JsIndex) (now : ℕ) :
    deriveGameRandom seedHex context .nan now =
        deriveGameRandom seedHex context (.int 0) now ∧
      deriveGameRandom seedHex context .nonNumber now =
        deriveGameRandom seedHex context (.int 0) now ∧
      deriveGameRandom seedHex .nonString step now =
        deriveGameRandom seedHex (.str "default-context") step now ∧
      deriveGameRandom seedHex (.str "") step now =
        deriveGameRandom seedHex (.str "default-context") step now := by
  refine ⟨rfl, rfl, ?_, ?_⟩ <;> simp [deriveGameRandom, validContext]

/-- On characters that `.` matches, the regex pair scan is exactly the split
into successive pairs. -/
theorem hexPairs_eq_chunk2 :
    ∀ l : List Char, (∀ c ∈ l, dotChar c = true) → hexPairs l = chunk2 l
  | [], _ => rfl
  | [c], h => by
    simp [hexPairs, chunk2, h c (by simp)]
  | c :: d :: t, h => by
    have hc := h c (by simp)
    have hd := h d (by simp)
    have ih := hexPairs_eq_chunk2 t (fun x hx => h x (by simp [hx]))
    simp [hexPairs, chunk2, hc, hd, ih]

/-- On a string with no `.`-matchable character the regex finds nothing. -/
theorem hexPairs_eq_nil :
    ∀ l : List Char, (∀ c ∈ l, dotChar c = false) → hexPairs l = []
  | [], _ => rfl
  | c :: t, h => by
    have hc := h c (by simp)
    have ih := hexPairs_eq_nil t (fun x hx => h x (by simp [hx]))
    cases t with
    | nil => simp [hexPairs, hc]
    | cons d t2 => simp [hexPairs, hc, ih]

/-- The pair split of a non-empty list is non-empty. -/
theorem chunk2_ne_nil : ∀ (c : Char) (t : List Char), chunk2 (c :: t) ≠ []
  | _, [] => by simp [chunk2]
  | _, _ :: _ => by simp [chunk2]

/-- The mixing loop reads at most 32 seed bytes, so truncating the seed byte
list at 32 does not change the hash. -/
theorem mixHash_take32 (sb cb : List ℕ) :
    mixHash (sb.take 32) cb = mixHash sb cb := by
  unfold mixHash
  rw [List.length_take]
  have h : min (min 32 sb.length) 32 = min sb.length 32 := by omega
  rw [h]
  apply List.foldl_ext
  intro acc i hi
  have hi32 : i < 32 := by
    have := List.mem_range.mp hi
    omega
  rw [List.getD_eq_getElem?_getD, List.getD_eq_getElem?_getD (l := sb),
    List.getElem?_take, if_pos hi32]

/-- When every seed character is `.`-matchable and the seed is non-empty the
source decodes it pairwise. -/
theorem seedBytesOf_all_dot (seed : String) (hne : seed.data ≠ [])
    (hall : ∀ c ∈ seed.data, dotChar c = true) :
    seedBytesOf seed = (chunk2 seed.data).map byteOfPair := by
  obtain ⟨c, t, he⟩ := List.exists_cons_of_ne_nil hne
  unfold seedBytesOf
  rw [hexPairs_eq_chunk2 _ hall, he]
  rcases hcz : chunk2 (c :: t) with _ | ⟨p, ps⟩
  · exact absurd hcz (chunk2_ne_nil c t)
  · rfl

/-- When no seed character is `.`-matchable the source falls back to the
first 32 UTF-8 bytes of the seed string. -/
theorem seedBytesOf_no_dot (seed : String)
    (hall : ∀ c ∈ seed.data, dotChar c = false) :
    seedBytesOf seed = (utf8Str seed).take 32 := by
  unfold seedBytesOf
  rw [hexPairs_eq_nil _ hall]

set_option maxRecDepth 40000 in
/-- C4, counterexample: the main path does not equal the successive-pair
reference on every non-empty seed and string context — a seed containing a
line terminator is paired differently by the regex, and an empty context is
replaced by the default context rather than hashed as written. -/
theorem claim_C4_counterexample :
    deriveGameRandom "ab\ncd" (.str "x") (.int 0) 0 ≠
        referenceDerive "ab\ncd" "x" 0 ∧
      deriveGameRandom "aabbccdd" (.str "") (.int 0) 0 ≠
        referenceDerive "aabbccdd" "" 0 :=
  ⟨by decide, by decide⟩

/-- C4, amended: for every non-empty seed containing no line terminators and
every non-empty string context and integer index, the main path of
`deriveGameRandom` equals the reference definition (successive hex byte
pairs, a pair whose `parseInt` yields NaN contributing byte 0, the
signed-32-bit XOR fold against the cycled UTF-8 context bytes, absolute
normalization by 2147483647, clamp into `[0.000001, 0.999999]`). -/
theorem claim_C4_main_path (seed ctx : String) (k : ℤ) (now : ℕ)
    (h1 : seed ≠ "") (h2 : ctx ≠ "") (h3 : seed.data.all dotChar = true) :
    deriveGameRandom seed (.str ctx) (.int k) now = referenceDerive seed ctx k := by
  have hall : ∀ c ∈ seed.data, dotChar c = true := List.all_eq_true.mp h3
  have hd : seed.data ≠ [] := fun e => h1 (String.ext e)
  simp only [deriveGameRandom, deriveCore, referenceDerive, validSeed,
    validContext, validStep, if_neg h1, if_neg h2]
  rw [seedBytesOf_all_dot seed hd hall]

/-- Witness for the amended C4 at a concrete hex seed. -/
theorem claim_C4_witness :
    (("aabb" : String) ≠ "" ∧ ("x" : String) ≠ "" ∧
        ("aabb" : String).data.all dotChar = true) ∧
      deriveGameRandom "aabb" (.str "x") (.int 0) 0 =
        referenceDerive "aabb" "x" 0 :=
  ⟨⟨by decide, by decide, by decide⟩,
    claim_C4_main_path "aabb" "x" 0 0 (by decide) (by decide) (by decide)⟩

set_option maxRecDepth 40000 in
/-- C8, counterexample: a non-hex seed such as "zzzz" is not decoded as its
raw UTF-8 bytes (each matched pair parses to NaN and contributes byte 0),
and an empty seed is not decoded as its UTF-8 bytes either (it is replaced
by a clock-dependent fallback seed string). -/
theorem claim_C8_counterexample :
    deriveGameRandom "zzzz" (.str "x") (.int 0) 0 ≠
        utf8FallbackDerive "zzzz" "x" 0 ∧
      deriveGameRandom "" (.str "x") (.int 0) 0 ≠
        utf8FallbackDerive "" "x" 0 :=
  ⟨by decide, by decide⟩

/-- C8, amended: the UTF-8 byte fallback is taken exactly when the pair
regex finds no match, i.e. when every character of the (non-empty) seed is a
line terminator; then the derivation uses the first 32 raw UTF-8 bytes of
the seed string, and no error is surfaced. Other malformed seeds decode per
matched pair with unparseable pairs contributing byte 0, and empty seeds are
replaced by a clock-dependent fallback seed string. -/
theorem claim_C8_utf8_path (seed ctx : String) (k : ℤ) (now : ℕ)
    (h1 : seed ≠ "") (h2 : ctx ≠ "")
    (h3 : seed.data.all (fun c => !dotChar c) = true) :
    deriveGameRandom seed (.str ctx) (.int k) now = utf8FallbackDerive seed ctx k := by
  have hall : ∀ c ∈ seed.data, dotChar c = false := by
    intro c hc
    simpa using List.all_eq_true.mp h3 c hc
  simp only [deriveGameRandom, deriveCore, utf8FallbackDerive, validSeed,
    validContext, validStep, if_neg h1, if_neg h2]
  rw [seedBytesOf_no_dot seed hall, mixHash_take32]

/-- Witness for the amended C8 at a concrete line-terminator seed. -/
theorem claim_C8_witness :
    (("\n" : String) ≠ "" ∧ ("x" : String) ≠ "" ∧
        ("\n" : String).data.all (fun c => !dotChar c) = true) ∧
      deriveGameRandom "\n" (.str "x") (.int 0) 0 =
        utf8FallbackDerive "\n" "x" 0 :=
  ⟨⟨by decide, by decide, by decide⟩,
    claim_C8_utf8_path "\n" "x" 0 0 (by decide) (by decide) (by decide)⟩

/-! ### Lemmas about the resolvers -/

/-- A derived value times a constant has non-negative floor. -/
theorem floor_mul_nonneg (v : ℚ) (n : ℕ) (h : 1 / 1000000 ≤ v) :
    0 ≤ ⌊v * n⌋ := by
  apply Int.le_floor.mpr
  push_cast
  have h0 : (0 : ℚ) ≤ v := le_trans (by norm_num) h
  positivity

/-- A value at most `0.999999` times a positive constant `n` has floor below
`n`. -/
theorem floor_mul_lt (v : ℚ) (n : ℕ) (h : v ≤ 999999 / 1000000) (h0 : 0 ≤ v)
    (hn : 0 < n) : ⌊v * n⌋ < n := by
  apply Int.floor_lt.mpr
  push_cast
  have hn1 : (1 : ℚ) ≤ (n : ℚ) := by exact_mod_cast hn
  nlinarith

/-- In-bounds JS array indexing returns the element. -/
theorem jsGet_eq_getD {α : Type} (l : List α) (i : ℤ) (d : α) (h0 : 0 ≤ i)
    (h : i.toNat < l.length) : jsGet l i = some (l.getD i.toNat d) := by
  unfold jsGet
  rw [if_neg (not_lt.mpr h0)]
  rw [List.getD_eq_getElem?_getD, List.getElem?_eq_getElem h]
  rw [List.get?_eq_getElem?, List.getElem?_eq_getElem h]
  rfl

/-- `determineWinner` implements exactly the beats-relation of the claim. -/
theorem determineWinner_eq_spec (p1 p2 : String) (m1 m2 : Move) :
    determineWinner p1 p2 m1 m2 = specRpsWinner p1 p2 m1 m2 := by
  cases m1 <;> cases m2 <;>
    simp [determineWinner, specRpsWinner, MOVE_BEATS, specBeats]

/-- The per-game body of the RPS batch always resolves, to the moves and
winner of the claim formulas (winner still in source form). -/
theorem rpsResolve_eq (masterSeed sessionId player1 player2 : String)
    (now gameIndex : ℕ) :
    rpsResolve masterSeed sessionId player1 player2 now gameIndex =
      some ⟨gameIndex,
        specMove (deriveGameRandom masterSeed (.str ("rps-p1-" ++ sessionId))
          (.int gameIndex) now),
        specMove (deriveGameRandom masterSeed (.str ("rps-p2-" ++ sessionId))
          (.int gameIndex) now),
        determineWinner player1 player2
          (specMove (deriveGameRandom masterSeed (.str ("rps-p1-" ++ sessionId))
            (.int gameIndex) now))
          (specMove (deriveGameRandom masterSeed (.str ("rps-p2-" ++ sessionId))
            (.int gameIndex) now))⟩ := by
  obtain ⟨hlo1, hhi1⟩ := derive_range masterSeed
    (.str ("rps-p1-" ++ sessionId)) (.int gameIndex) now
  obtain ⟨hlo2, hhi2⟩ := derive_range masterSeed
    (.str ("rps-p2-" ++ sessionId)) (.int gameIndex) now
  have e1 := jsFloorMul_eq (deriveGameRandom masterSeed
    (.str ("rps-p1-" ++ sessionId)) (.int gameIndex) now) 3
  have e2 := jsFloorMul_eq (deriveGameRandom masterSeed
    (.str ("rps-p2-" ++ sessionId)) (.int gameIndex) now) 3
  have b1 := floor_mul_nonneg _ 3 hlo1
  have b2 := floor_mul_lt _ 3 hhi1 (le_trans (by norm_num) hlo1) (by norm_num)
  have b3 := floor_mul_nonneg _ 3 hlo2
  have b4 := floor_mul_lt _ 3 hhi2 (le_trans (by norm_num) hlo2) (by norm_num)
  push_cast at e1 e2 b1 b2 b3 b4
  unfold rpsResolve specMove
  dsimp only
  rw [e1, e2, jsGet_eq_getD _ _ Move.rock (by omega) (by simp [MOVES]; omega),
    jsGet_eq_getD _ _ Move.rock (by omega) (by simp [MOVES]; omega)]

/-- The values the high-card table attaches to the thirteen rank labels. -/
theorem rankValue_getD (r : ℕ) (h : r < 13) :
    RANK_VALUES (RANKS.getD r "") = some (r + 2) := by
  interval_cases r <;> rfl

/-- The tie-break priorities of the four suit labels. -/
theorem suitOrder_getD (j : ℕ) (h : j < 4) :
    suitOrder (SUITS.getD j "") = 4 - j := by
  interval_cases j <;> rfl

/-- `drawCardIdx` on an in-range card index builds exactly the claim card. -/
theorem drawCardIdx_eq (i : ℤ) (h0 : 0 ≤ i) (h52 : i < 52) :
    drawCardIdx i = some (specDrawCard i.toNat) := by
  obtain ⟨n, rfl⟩ := Int.eq_ofNat_of_zero_le h0
  have hn : n < 52 := by exact_mod_cast h52
  unfold drawCardIdx specDrawCard
  dsimp only
  have hf : ((n : ℤ)).fdiv 13 = ((n / 13 : ℕ) : ℤ) := by
    rw [Int.fdiv_eq_ediv _ (by norm_num)]
    omega
  have ht : ((n : ℤ)).tmod 13 = ((n % 13 : ℕ) : ℤ) := by
    rw [Int.tmod_eq_emod (by positivity) (by norm_num)]
    omega
  rw [hf, ht, Int.toNat_natCast,
    jsGet_eq_getD _ _ "" (by positivity) (by simp [SUITS]; omega),
    jsGet_eq_getD _ _ "" (by positivity) (by simp [RANKS]; omega),
    Int.toNat_natCast, Int.toNat_natCast]
  dsimp only
  rw [rankValue_getD _ (by omega)]

/-- On cards drawn from in-range indices, the source winner comparison is
the claim comparison on raw card indices. -/
theorem highCardWinner_eq_spec (p1 p2 : String) (i1 i2 : ℕ) (h1 : i1 < 52)
    (h2 : i2 < 52) :
    highCardWinner p1 p2 (specDrawCard i1) (specDrawCard i2) =
      specHighCardWinner p1 p2 i1 i2 := by
  unfold highCardWinner specDrawCard specHighCardWinner specRankValue specSuitRank
  rw [suitOrder_getD (i1 / 13) (by omega), suitOrder_getD (i2 / 13) (by omega)]

/-- The claim winner is the tie marker exactly when rank and suit agree
(for players not literally named by the tie marker). -/
theorem specHighCardWinner_tie_iff (p1 p2 : String) (hp1 : p1 ≠ "Tie")
    (hp2 : p2 ≠ "Tie") (i1 i2 : ℕ) (hi1 : i1 < 52) (hi2 : i2 < 52) :
    (specHighCardWinner p1 p2 i1 i2 = "Tie" ↔
      (i1 % 13 = i2 % 13 ∧ i1 / 13 = i2 / 13)) := by
  unfold specHighCardWinner specRankValue specSuitRank
  split_ifs with a b c d
  · exact ⟨fun hp => (hp1 hp).elim, fun hpair => absurd a (by omega)⟩
  · exact ⟨fun hp => (hp2 hp).elim, fun hpair => absurd b (by omega)⟩
  · exact ⟨fun hp => (hp1 hp).elim, fun hpair => absurd c (by omega)⟩
  · exact ⟨fun hp => (hp2 hp).elim, fun hpair => absurd d (by omega)⟩
  · exact ⟨fun _ => by omega, fun _ => rfl⟩

/-- The per-game body of the high-card batch always resolves, to the cards
of the claim formulas (winner still in source form). -/
theorem highCardResolve_eq (masterSeed sessionId player1 player2 : String)
    (now gameIndex : ℕ) :
    highCardResolve masterSeed sessionId player1 player2 now gameIndex =
      some ⟨gameIndex,
        specDrawCard (specCardIndex (deriveGameRandom masterSeed
          (.str ("card-p1-" ++ sessionId)) (.int gameIndex) now)),
        specDrawCard (specCardIndex (deriveGameRandom masterSeed
          (.str ("card-p2-" ++ sessionId)) (.int gameIndex) now)),
        highCardWinner player1 player2
          (specDrawCard (specCardIndex (deriveGameRandom masterSeed
            (.str ("card-p1-" ++ sessionId)) (.int gameIndex) now)))
          (specDrawCard (specCardIndex (deriveGameRandom masterSeed
            (.str ("card-p2-" ++ sessionId)) (.int gameIndex) now)))⟩ := by
  obtain ⟨hlo1, hhi1⟩ := derive_range masterSeed
    (.str ("card-p1-" ++ sessionId)) (.int gameIndex) now
  obtain ⟨hlo2, hhi2⟩ := derive_range masterSeed
    (.str ("card-p2-" ++ sessionId)) (.int gameIndex) now
  have b1 := floor_mul_nonneg _ 52 hlo1
  have b2 := floor_mul_lt _ 52 hhi1 (le_trans (by norm_num) hlo1) (by norm_num)
  have b3 := floor_mul_nonneg _ 52 hlo2
  have b4 := floor_mul_lt _ 52 hhi2 (le_trans (by norm_num) hlo2) (by norm_num)
  push_cast at b1 b2 b3 b4
  unfold highCardResolve drawCard specCardIndex
  dsimp only
  rw [jsFloorMul_eq, jsFloorMul_eq]
  push_cast
  rw [drawCardIdx_eq _ b1 (by omega), drawCardIdx_eq _ b3 (by omega)]

/-- Dropping `N` entries of a map over `range count` is the map over
`range (count - N)` shifted by `N`. -/
theorem drop_map_range {α : Type} (f : ℕ → α) (N count : ℕ) (h : N ≤ count) :
    ((List.range count).map f).drop N =
      (List.range (count - N)).map (fun i => f (N + i)) := by
  apply List.ext_getElem
  · simp [List.length_drop]
  · intro n h1 h2
    rw [List.getElem_drop, List.getElem_map, List.getElem_map,
      List.getElem_range, List.getElem_range]

/-- The face of a coin-flip game does not depend on the batch start. -/
theorem coinGame_face (masterSeed sessionId player1 player2 : String)
    (now batchStart gameIndex : ℕ) :
    (coinGame masterSeed sessionId player1 player2 now batchStart
      gameIndex).face = coinFace masterSeed sessionId now gameIndex := rfl

set_option maxRecDepth 200000 in
/-- C5, counterexample: at a concrete 32-byte master seed, resolving games
0..1 in one batch and then slicing off game 1 differs from resuming at
completed = 1: the coin-flip side assignment is derived at the batch start
index (0 versus 1), and at this seed the two assignment values fall on
opposite sides of 0.5, so game 1 is recorded with a different winner. -/
theorem claim_C5_counterexample :
    (coinBatch "71722f244f58d669cbee3772a077021721a278f64f7fd633dbdde131ca3766e4"
        "s1" "P1" "P2" 0 0 2).drop 1 ≠
      coinBatch "71722f244f58d669cbee3772a077021721a278f64f7fd633dbdde131ca3766e4"
        "s1" "P1" "P2" 0 1 1 := by decide

/-- C5, amended: order-independent replayability holds for the RPS resolver
(resuming at completed = N reproduces exactly the slice of a single-pass
run) and for the coin-flip face sequence; the coin-flip winner additionally
depends on the start index of the batch containing the game (the side
assignment is derived once per batch at its start index), so winners are
reproduced only when batch boundaries coincide. -/
theorem claim_C5_resume (masterSeed sessionId player1 player2 : String)
    (now N count : ℕ) (h : N ≤ count) :
    (rpsBatch masterSeed sessionId player1 player2 now 0 count).drop N =
        rpsBatch masterSeed sessionId player1 player2 now N (count - N) ∧
      ((coinBatch masterSeed sessionId player1 player2 now 0 count).drop N).map
          CoinResult.face =
        (coinBatch masterSeed sessionId player1 player2 now N (count - N)).map
          CoinResult.face := by
  constructor
  · unfold rpsBatch
    rw [drop_map_range _ _ _ h]
    apply List.ext_getElem
    · simp
    · intro n h1 h2
      simp only [List.getElem_map, List.getElem_range, Nat.zero_add]
  · unfold coinBatch
    rw [drop_map_range _ _ _ h, List.map_map, List.map_map]
    apply List.ext_getElem
    · simp
    · intro n h1 h2
      simp only [List.getElem_map, List.getElem_range, Function.comp_apply,
        coinGame_face, Nat.zero_add]

/-- Witness for the amended C5 at a concrete seed, resuming at 1 of 2. -/
theorem claim_C5_witness :
    1 ≤ 2 ∧
      ((rpsBatch "aabb" "s1" "A" "B" 0 0 2).drop 1 =
          rpsBatch "aabb" "s1" "A" "B" 0 1 (2 - 1) ∧
        ((coinBatch "aabb" "s1" "A" "B" 0 0 2).drop 1).map CoinResult.face =
          (coinBatch "aabb" "s1" "A" "B" 0 1 (2 - 1)).map CoinResult.face) :=
  ⟨by decide, claim_C5_resume "aabb" "s1" "A" "B" 0 1 2 (by decide)⟩

/-- C6: for every game index, the high-card resolver always resolves; each
player's card is built from their own derived value `v` as
`cardIndex = floor(v * 52)`, suit from `cardIndex / 13` in the fixed order
spade, heart, diamond, club, rank from `cardIndex % 13` with rank value
`rankIndex + 2` (Ace, index 12, has value 14 and beats King, 13); the winner
is the player with the higher rank value, equal rank decided by the suit
order spade > heart > diamond > club, and the result is the tie marker
exactly when both rank and suit agree (for player labels distinct from the
tie marker). -/
theorem claim_C6_highcard (masterSeed sessionId player1 player2 : String)
    (now gameIndex : ℕ) (hp1 : player1 ≠ "Tie") (hp2 : player2 ≠ "Tie") :
    highCardResolve masterSeed sessionId player1 player2 now gameIndex =
        some ⟨gameIndex,
          specDrawCard (specCardIndex (deriveGameRandom masterSeed
            (.str ("card-p1-" ++ sessionId)) (.int gameIndex) now)),
          specDrawCard (specCardIndex (deriveGameRandom masterSeed
            (.str ("card-p2-" ++ sessionId)) (.int gameIndex) now)),
          specHighCardWinner player1 player2
            (specCardIndex (deriveGameRandom masterSeed
              (.str ("card-p1-" ++ sessionId)) (.int gameIndex) now))
            (specCardIndex (deriveGameRandom masterSeed
              (.str ("card-p2-" ++ sessionId)) (.int gameIndex) now))⟩ ∧
      (specHighCardWinner player1 player2
          (specCardIndex (deriveGameRandom masterSeed
            (.str ("card-p1-" ++ sessionId)) (.int gameIndex) now))
          (specCardIndex (deriveGameRandom masterSeed
            (.str ("card-p2-" ++ sessionId)) (.int gameIndex) now)) = "Tie" ↔
        (specCardIndex (deriveGameRandom masterSeed
            (.str ("card-p1-" ++ sessionId)) (.int gameIndex) now) % 13 =
          specCardIndex (deriveGameRandom masterSeed
            (.str ("card-p2-" ++ sessionId)) (.int gameIndex) now) % 13 ∧
        specCardIndex (deriveGameRandom masterSeed
            (.str ("card-p1-" ++ sessionId)) (.int gameIndex) now) / 13 =
          specCardIndex (deriveGameRandom masterSeed
            (.str ("card-p2-" ++ sessionId)) (.int gameIndex) now) / 13)) := by
  obtain ⟨hlo1, hhi1⟩ := derive_range masterSeed
    (.str ("card-p1-" ++ sessionId)) (.int gameIndex) now
  obtain ⟨hlo2, hhi2⟩ := derive_range masterSeed
    (.str ("card-p2-" ++ sessionId)) (.int gameIndex) now
  have hi1 : specCardIndex (deriveGameRandom masterSeed
      (.str ("card-p1-" ++ sessionId)) (.int gameIndex) now) < 52 := by
    unfold specCardIndex
    have := floor_mul_lt _ 52 hhi1 (le_trans (by norm_num) hlo1) (by norm_num)
    push_cast at this
    omega
  have hi2 : specCardIndex (deriveGameRandom masterSeed
      (.str ("card-p2-" ++ sessionId)) (.int gameIndex) now) < 52 := by
    unfold specCardIndex
    have := floor_mul_lt _ 52 hhi2 (le_trans (by norm_num) hlo2) (by norm_num)
    push_cast at this
    omega
  constructor
  · rw [highCardResolve_eq, highCardWinner_eq_spec player1 player2 _ _ hi1 hi2]
  · exact specHighCardWinner_tie_iff player1 player2 hp1 hp2 _ _ hi1 hi2

/-- Witness for C6 at concrete players and seed. -/
theorem claim_C6_witness :
    (("Alice" : String) ≠ "Tie" ∧ ("Bob" : String) ≠ "Tie") ∧
      (highCardResolve "aabb" "s1" "Alice" "Bob" 0 0 =
          some ⟨0,
            specDrawCard (specCardIndex (deriveGameRandom "aabb"
              (.str ("card-p1-" ++ "s1")) (.int 0) 0)),
            specDrawCard (specCardIndex (deriveGameRandom "aabb"
              (.str ("card-p2-" ++ "s1")) (.int 0) 0)),
            specHighCardWinner "Alice" "Bob"
              (specCardIndex (deriveGameRandom "aabb"
                (.str ("card-p1-" ++ "s1")) (.int 0) 0))
              (specCardIndex (deriveGameRandom "aabb"
                (.str ("card-p2-" ++ "s1")) (.int 0) 0))⟩ ∧
        (specHighCardWinner "Alice" "Bob"
            (specCardIndex (deriveGameRandom "aabb"
              (.str ("card-p1-" ++ "s1")) (.int 0) 0))
            (specCardIndex (deriveGameRandom "aabb"
              (.str ("card-p2-" ++ "s1")) (.int 0) 0)) = "Tie" ↔
          (specCardIndex (deriveGameRandom "aabb"
              (.str ("card-p1-" ++ "s1")) (.int 0) 0) % 13 =
            specCardIndex (deriveGameRandom "aabb"
              (.str ("card-p2-" ++ "s1")) (.int 0) 0) % 13 ∧
          specCardIndex (deriveGameRandom "aabb"
              (.str ("card-p1-" ++ "s1")) (.int 0) 0) / 13 =
            specCardIndex (deriveGameRandom "aabb"
              (.str ("card-p2-" ++ "s1")) (.int 0) 0) / 13))) :=
  ⟨⟨by decide, by decide⟩,
    claim_C6_highcard "aabb" "s1" "Alice" "Bob" 0 0 (by decide) (by decide)⟩

/-- C7: for every game index, the RPS resolver always resolves; each
player's move is the element of `[rock, paper, scissors]` at index
`floor(v * 3)` of their own derived value `v`; the winner follows the fixed
beats-relation (rock beats scissors, scissors beats paper, paper beats
rock), and equal moves always yield the tie result. -/
theorem claim_C7_rps (masterSeed sessionId player1 player2 : String)
    (now gameIndex : ℕ) :
    rpsResolve masterSeed sessionId player1 player2 now gameIndex =
        some ⟨gameIndex,
          specMove (deriveGameRandom masterSeed (.str ("rps-p1-" ++ sessionId))
            (.int gameIndex) now),
          specMove (deriveGameRandom masterSeed (.str ("rps-p2-" ++ sessionId))
            (.int gameIndex) now),
          specRpsWinner player1 player2
            (specMove (deriveGameRandom masterSeed
              (.str ("rps-p1-" ++ sessionId)) (.int gameIndex) now))
            (specMove (deriveGameRandom masterSeed
              (.str ("rps-p2-" ++ sessionId)) (.int gameIndex) now))⟩ ∧
      (∀ (p q : String) (m1 m2 : Move),
        determineWinner p q m1 m2 = specRpsWinner p q m1 m2) ∧
      (∀ (p q : String) (m : Move), determineWinner p q m m = "Tie") := by
  refine ⟨?_, determineWinner_eq_spec, ?_⟩
  · rw [rpsResolve_eq, determineWinner_eq_spec]
  · intro p q m
    simp [determineWinner]

/-- C10: every derived value `v` satisfies `0 ≤ floor(v * 3) < 3` and
`0 ≤ floor(v * 52) < 52`, so the RPS move lookup and the high-card
suit/rank lookups are always in bounds and the resolvers never produce an
undefined move or card. -/
theorem claim_C10_inbounds (seedHex : String) (context : JsContext)
    (step : JsIndex) (now : ℕ)
    (masterSeed sessionId player1 player2 : String) (now2 gameIndex : ℕ) :
    (0 ≤ ⌊deriveGameRandom seedHex context step now * 3⌋ ∧
      ⌊deriveGameRandom seedHex context step now * 3⌋ < 3) ∧
      (0 ≤ ⌊deriveGameRandom seedHex context step now * 52⌋ ∧
        ⌊deriveGameRandom seedHex context step now * 52⌋ < 52) ∧
      (rpsResolve masterSeed sessionId player1 player2 now2 gameIndex).isSome
        = true ∧
      (highCardResolve masterSeed sessionId player1 player2 now2
        gameIndex).isSome = true := by
  obtain ⟨hlo, hhi⟩ := derive_range seedHex context step now
  have h0 : (0 : ℚ) ≤ deriveGameRandom seedHex context step now :=
    le_trans (by norm_num) hlo
  refine ⟨⟨?_, ?_⟩, ⟨?_, ?_⟩, ?_, ?_⟩
  · have := floor_mul_nonneg _ 3 hlo
    push_cast at this
    exact this
  · have := floor_mul_lt _ 3 hhi h0 (by norm_num)
    push_cast at this
    exact this
  · have := floor_mul_nonneg _ 52 hlo
    push_cast at this
    exact this
  · have := floor_mul_lt _ 52 hhi h0 (by norm_num)
    push_cast at this
    exact this
  · rw [rpsResolve_eq]
    rfl
  · rw [highCardResolve_eq]
    rfl

end Mop

